import Mathlib

/-!
Verification of the client-side translation front-end (`src/translator.js`).

The file shallowly embeds the state and handlers of the page:

* `UIState` collects every DOM cell the script mutates (progress bar width,
  status text, the two counters, the log container, the summary widgets, the
  file-name label, the enablement of the translate button, and the download
  button binding).  `addLog` prepends a wall-clock timestamp in the source;
  wall-clock time is outside the embedding, so a log entry is modelled by its
  message.
* `Record` is a parsed JSON object restricted to the fields the script reads;
  JavaScript truthiness of a string-valued field is `strTruthy` (absent or
  empty string is falsy).  `Line` is one non-blank line of the stream: either
  it parses to an object (`rec`, with the raw text kept for the catch clause)
  or `JSON.parse` throws (`junk`).
* `chunkLines` / `decodeChunks` embed the byte-chunk decoding of the stream
  loop: each chunk is decoded and split on the newline character on its own,
  and blank lines are dropped (`text.split('\n').filter(line => line.trim())`).
  The source keeps no carry-over between chunks.
* `processLine` embeds the body of `updates.forEach`.  The source references
  the undefined identifier `logger` right after storing a truthy
  `downloadUrl`; evaluating `logger.info(...)` therefore raises a
  ReferenceError which the surrounding `catch` turns into a
  `Non-JSON update:` log entry, skipping the summary block of the same
  iteration.  The embedding reproduces exactly that control flow.
* `clickTranslate` embeds the whole click handler of the translate button,
  with `RunInput` enumerating how the transport behaves (fetch rejection,
  non-ok HTTP response, a reader error after a prefix of lines, or a stream
  that ends normally).  `clickClearCache` embeds the clear-cache handler with
  `CacheResponse` enumerating its outcomes, and `handleFiles` embeds the file
  selection handler.
-/

/-- JavaScript truthiness of an (optional) string value: `undefined` and the
empty string are falsy, every other string is truthy. -/
def strTruthy : Option String → Bool
  | none => false
  | some s => s != ""

/-- A parsed JSON record, restricted to the fields `translator.js` reads.
Numeric fields are guarded by `!== undefined` in the source, string fields by
truthiness. -/
structure Record where
  progress : Option Int := none
  status : Option String := none
  apiCalls : Option Int := none
  cached : Option Int := none
  message : Option String := none
  summary : Option String := none
  downloadUrl : Option String := none
deriving Repr, DecidableEq

/-- One non-blank line of the progress stream: either `JSON.parse` succeeds
and yields a `Record` (the raw text is kept because the catch clause logs it),
or it throws. -/
inductive Line where
  | junk (raw : String)
  | record (data : Record) (raw : String)
deriving Repr, DecidableEq

/-- The DOM cells and local mirrors mutated by the script. -/
structure UIState where
  progressVisible : Bool
  progressWidth : String
  statusText : String
  apiCallsText : String
  cachedText : String
  log : List String
  summaryDisplay : String
  summaryVisible : Bool
  editSummaryBtnDisabled : Bool
  exportSummaryBtnDisabled : Bool
  currentSummary : String
  translateBtnDisabled : Bool
  fileNameText : String
  downloadBtnUrl : Option String
deriving Repr, DecidableEq

/-- `addLog(message)`: one entry is appended to the log container (the
wall-clock timestamp prefix is outside the embedding). -/
def addLog (s : UIState) (message : String) : UIState :=
  { s with log := s.log ++ [message] }

/-- The run-local variables of the translate click handler together with the
page state. -/
structure RunState where
  translationComplete : Bool := false
  summaryGenerated : Bool := false
  finalDownloadUrl : Option String := none
  ui : UIState
deriving Repr, DecidableEq

/-- `handleProgressUpdate(data)`: applies the `progress`, `status`,
`apiCalls`, `cached` and `message` fields in source order.  The trailing
`downloadUrl` branch only calls `console.log`, which touches no state of the
page. -/
def handleProgressUpdate (data : Record) (s : UIState) : UIState :=
  let s := match data.progress with
    | some p => { s with progressWidth := toString p ++ "%" }
    | none => s
  let s := if strTruthy data.status then { s with statusText := data.status.getD "" } else s
  let s := match data.apiCalls with
    | some n => { s with apiCallsText := toString n }
    | none => s
  let s := match data.cached with
    | some n => { s with cachedText := toString n }
    | none => s
  if strTruthy data.message then addLog s (data.message.getD "") else s

/-- The summary branch of the forEach body: store the summary, display it,
reveal the summary section, enable its buttons, and log. -/
def applySummary (text : String) (s : UIState) : UIState :=
  addLog
    { s with currentSummary := text, summaryDisplay := text, summaryVisible := true,
             editSummaryBtnDisabled := false, exportSummaryBtnDisabled := false }
    "Document summary generated and displayed"

/-- The body of `updates.forEach(update => ...)`.  A line that fails to parse
is logged by the catch clause.  A parsed record first goes through
`handleProgressUpdate`; if its `downloadUrl` is truthy, `finalDownloadUrl` and
`translationComplete` are assigned and then the reference to the undefined
identifier `logger` raises a ReferenceError, so control jumps to the catch
clause (one more log entry) and the summary branch of the same iteration never
runs. -/
def processLine (s : RunState) (l : Line) : RunState :=
  match l with
  | .junk raw => { s with ui := addLog s.ui ("Non-JSON update: " ++ raw) }
  | .record data raw =>
      let ui := handleProgressUpdate data s.ui
      if strTruthy data.downloadUrl then
        { translationComplete := true
          summaryGenerated := s.summaryGenerated
          finalDownloadUrl := data.downloadUrl
          ui := addLog ui ("Non-JSON update: " ++ raw) }
      else if strTruthy data.summary then
        { s with summaryGenerated := true, ui := applySummary (data.summary.getD "") ui }
      else
        { s with ui := ui }

/-- Processing the lines of the stream in order. -/
def processLines (ls : List Line) (s : RunState) : RunState :=
  ls.foldl processLine s

/-- JavaScript `text.split('\n')` on the character list of `text`: split at
every newline character, keeping empty fragments (splitting the empty string
yields one empty fragment). -/
def splitOnNewline : List Char → List (List Char)
  | [] => [[]]
  | c :: cs =>
      let rest := splitOnNewline cs
      if c = '\n' then [] :: rest
      else
        match rest with
        | [] => [[c]]
        | r :: rs => (c :: r) :: rs

/-- Truthiness of `line.trim()` in the stream loop's filter: a line survives
iff it contains a character that is not whitespace (on the ASCII whitespace
characters this agrees with the JavaScript trim set). -/
def keptByTrimFilter (line : List Char) : Bool :=
  line.any (fun c => !c.isWhitespace)

/-- Decoding one chunk: `text.split('\n').filter(line => line.trim())`. -/
def chunkLines (chunk : String) : List String :=
  ((splitOnNewline chunk.data).filter keptByTrimFilter).map String.mk

/-- The line sequence produced by the stream loop for a given list of chunks:
each chunk is split independently, with no carry-over between chunks. -/
def decodeChunks (chunks : List String) : List String :=
  chunks.flatMap chunkLines

/-- JavaScript `name.toLowerCase()` (ASCII letters; the file suffixes at issue
are ASCII). -/
def toLowerJS (s : String) : String :=
  String.mk (s.data.map Char.toLower)

/-- JavaScript `s.endsWith(suffix)`. -/
def endsWithJS (s suffix : String) : Bool :=
  suffix.data.isSuffixOf s.data

/-- `handleFiles(files)`: the first file is accepted iff its lowercased name
ends in `.docx` or `.pdf`; acceptance records the name and enables the
translate button, rejection shows a fixed message, disables the button and
logs the reason.  An empty file list does nothing. -/
def handleFiles (files : List String) (s : UIState) : UIState :=
  match files with
  | [] => s
  | name :: _ =>
      if endsWithJS (toLowerJS name) ".docx" || endsWithJS (toLowerJS name) ".pdf" then
        { s with fileNameText := name, translateBtnDisabled := false,
                 log := s.log ++ ["File selected: " ++ name] }
      else
        { s with fileNameText := "Please select a DOCX or PDF file",
                 translateBtnDisabled := true,
                 log := s.log ++ ["Error: Invalid file type. Please select a DOCX or PDF file."] }

/-- `addDownloadButton(downloadUrl)`: bind the download button to the URL and
log that the download is ready. -/
def addDownloadButton (downloadUrl : String) (s : UIState) : UIState :=
  addLog { s with downloadBtnUrl := some downloadUrl }
    "Download ready! Click the download button to save the translated document."

/-- The statements before the `try` block of the translate handler: show the
progress section, disable the button, reset status and bar, clear the log and
log the two initial messages. -/
def startRun (s : UIState) : UIState :=
  { s with progressVisible := true, translateBtnDisabled := true,
           statusText := "Translating...", progressWidth := "0%",
           log := ["Starting translation process..."] }

/-- The `catch` clause of the translate handler. -/
def runCatch (msg : String) (s : UIState) : UIState :=
  addLog { s with statusText := "Error" } ("Error during translation: " ++ msg)

/-- How the transport behaves during one run: the fetch promise rejects, the
response is not ok (which the handler turns into a thrown `Error`), the reader
throws after a prefix of lines was processed, or the stream ends normally
after delivering `lines`. -/
inductive RunInput where
  | fetchRejected (msg : String)
  | httpError (statusCode : Nat)
  | streamThrows (processed : List Line) (msg : String)
  | streamOk (lines : List Line)
deriving Repr, DecidableEq

/-- The result of one activation of the translate button: whether a request
was sent to the server, and the final page state. -/
structure ClickResult where
  requestSent : Bool
  ui : UIState
deriving Repr, DecidableEq

/-- A fresh run-state around the page state `s` (`translationComplete = false`,
`summaryGenerated = false`, `finalDownloadUrl = null`). -/
def initRun (s : UIState) : RunState :=
  { ui := s }

/-- The post-stream branch of the translate handler: on
`translationComplete && finalDownloadUrl` finalize status, force the bar to
100%, surface the download button and log success; otherwise overwrite the
status (unless it already reads `Error`) and log the failure. -/
def finishRun (rs : RunState) : UIState :=
  let s := addLog rs.ui "Stream complete"
  if rs.translationComplete && strTruthy rs.finalDownloadUrl then
    let s := { s with statusText := "Translation completed", progressWidth := "100%" }
    addLog (addDownloadButton (rs.finalDownloadUrl.getD "") s)
      "Translation process finished successfully. Download ready."
  else
    let s := if s.statusText ≠ "Error" then { s with statusText := "Translation incomplete or failed" } else s
    addLog s "Translation process finished with errors or was incomplete."

/-- The whole click handler of the translate button.  `files` is
`fileInput.files`; with no file the handler returns before any effect and no
request is sent.  Otherwise the handler always ends in the `finally` block,
which re-enables the button. -/
def clickTranslate (files : List String) (input : RunInput) (s0 : UIState) : ClickResult :=
  match files with
  | [] => { requestSent := false, ui := s0 }
  | _file :: _ =>
      let s := addLog (startRun s0) "Sending file to server..."
      let result :=
        match input with
        | .fetchRejected msg => runCatch msg s
        | .httpError code =>
            runCatch ("Translation failed with status: " ++ toString code) s
        | .streamThrows processed msg =>
            let s := addLog s "Connected to server stream. Waiting for updates..."
            runCatch msg (processLines processed (initRun s)).ui
        | .streamOk lines =>
            let s := addLog s "Connected to server stream. Waiting for updates..."
            finishRun (processLines lines (initRun s))
      { requestSent := true, ui := { result with translateBtnDisabled := false } }

/-- How the clear-cache request turns out: success with a parsed `message`
field, ok response whose JSON body fails to parse, non-ok response, or a
rejected fetch. -/
inductive CacheResponse where
  | ok (message : String)
  | okBadJson (errMsg : String)
  | httpError
  | networkError (errMsg : String)
deriving Repr, DecidableEq

/-- The click handler of the clear-cache button: only a fully successful
request (ok response and parsed body) resets the two counters; every failure
is caught and logged without touching them. -/
def clickClearCache (r : CacheResponse) (s : UIState) : UIState :=
  match r with
  | .ok msg =>
      { s with apiCallsText := "0", cachedText := "0",
               log := s.log ++ ["Cache cleared: " ++ msg] }
  | .okBadJson m => addLog s ("Error clearing cache: " ++ m)
  | .httpError => addLog s "Error clearing cache: Failed to clear cache"
  | .networkError m => addLog s ("Error clearing cache: " ++ m)

/-- The error message the catch clause of the clear-cache handler logs, when
the outcome is a failure. -/
def cacheErrorMsg : CacheResponse → Option String
  | .ok _ => none
  | .okBadJson m => some m
  | .httpError => some "Failed to clear cache"
  | .networkError m => some m

/-- The `downloadUrl` a line contributes: its field when the line parses and
the field is truthy, nothing otherwise. -/
def lineDownloadUrl : Line → Option String
  | .junk _ => none
  | .record d _ => if strTruthy d.downloadUrl then d.downloadUrl else none

/-- Whether a line carries a truthy `downloadUrl`. -/
def lineHasDownloadUrl (l : Line) : Bool :=
  (lineDownloadUrl l).isSome

/-- The last truthy `downloadUrl` carried by a list of lines. -/
def lastDownloadUrl : List Line → Option String
  | [] => none
  | l :: ls =>
      match lastDownloadUrl ls with
      | some u => some u
      | none => lineDownloadUrl l

/-- A concrete page state, as the page loads (progress hidden, translate
button disabled, empty log). -/
def initialUI : UIState :=
  { progressVisible := false, progressWidth := "0%", statusText := "Ready",
    apiCallsText := "0", cachedText := "0", log := [], summaryDisplay := "",
    summaryVisible := false, editSummaryBtnDisabled := true,
    exportSummaryBtnDisabled := true, currentSummary := "",
    translateBtnDisabled := true, fileNameText := "", downloadBtnUrl := none }

/-! ## Helper lemmas -/

theorem processLine_finalDownloadUrl (s : RunState) (l : Line) :
    (processLine s l).finalDownloadUrl =
      match lineDownloadUrl l with
      | some u => some u
      | none => s.finalDownloadUrl := by
  cases l with
  | junk raw => rfl
  | record d raw =>
      simp only [processLine, lineDownloadUrl]
      cases h : strTruthy d.downloadUrl with
      | true =>
          cases hd : d.downloadUrl with
          | none => rw [hd] at h; simp [strTruthy] at h
          | some u => simp [h, hd]
      | false =>
          cases h2 : strTruthy d.summary <;> simp [h, h2]

theorem processLines_finalDownloadUrl (ls : List Line) (s : RunState) :
    (processLines ls s).finalDownloadUrl =
      match lastDownloadUrl ls with
      | some u => some u
      | none => s.finalDownloadUrl := by
  induction ls generalizing s with
  | nil => rfl
  | cons l ls ih =>
      show (processLines ls (processLine s l)).finalDownloadUrl = _
      rw [ih]
      simp only [lastDownloadUrl, processLine_finalDownloadUrl]
      cases lastDownloadUrl ls <;> cases lineDownloadUrl l <;> simp

theorem processLine_translationComplete (s : RunState) (l : Line) :
    (processLine s l).translationComplete =
      (s.translationComplete || lineHasDownloadUrl l) := by
  cases l with
  | junk raw => simp [processLine, lineHasDownloadUrl, lineDownloadUrl]
  | record d raw =>
      simp only [processLine, lineHasDownloadUrl, lineDownloadUrl]
      cases h : strTruthy d.downloadUrl with
      | true =>
          cases hd : d.downloadUrl with
          | none => rw [hd] at h; simp [strTruthy] at h
          | some u => simp [h, hd]
      | false =>
          cases h2 : strTruthy d.summary <;> simp [h, h2]

theorem processLines_translationComplete (ls : List Line) (s : RunState) :
    (processLines ls s).translationComplete =
      (s.translationComplete || ls.any lineHasDownloadUrl) := by
  induction ls generalizing s with
  | nil => simp [processLines]
  | cons l ls ih =>
      show (processLines ls (processLine s l)).translationComplete = _
      rw [ih, processLine_translationComplete]
      simp [Bool.or_assoc]

theorem processLine_truthy_invariant (s : RunState) (l : Line)
    (h : s.translationComplete = true → strTruthy s.finalDownloadUrl = true) :
    (processLine s l).translationComplete = true →
      strTruthy (processLine s l).finalDownloadUrl = true := by
  cases l with
  | junk raw => exact h
  | record d raw =>
      simp only [processLine]
      cases hd : strTruthy d.downloadUrl with
      | true => intro _; simp [hd]
      | false =>
          cases h2 : strTruthy d.summary <;> simp [hd, h2] <;> exact h

theorem processLines_truthy_invariant (ls : List Line) (s : RunState)
    (h : s.translationComplete = true → strTruthy s.finalDownloadUrl = true) :
    (processLines ls s).translationComplete = true →
      strTruthy (processLines ls s).finalDownloadUrl = true := by
  induction ls generalizing s with
  | nil => exact h
  | cons l ls ih =>
      show (processLines ls (processLine s l)).translationComplete = true → _
      exact ih (processLine s l) (processLine_truthy_invariant s l h)

theorem lastDownloadUrl_isSome (ls : List Line) :
    (lastDownloadUrl ls).isSome = ls.any lineHasDownloadUrl := by
  induction ls with
  | nil => rfl
  | cons l ls ih =>
      simp only [lastDownloadUrl, List.any_cons, lineHasDownloadUrl]
      cases h : lastDownloadUrl ls with
      | some u => simp [← ih, h]
      | none => simp [← ih, h]

theorem handleProgressUpdate_frame (d : Record) (s : UIState) :
    (handleProgressUpdate d s).currentSummary = s.currentSummary ∧
    (handleProgressUpdate d s).summaryDisplay = s.summaryDisplay ∧
    (handleProgressUpdate d s).summaryVisible = s.summaryVisible ∧
    (handleProgressUpdate d s).editSummaryBtnDisabled = s.editSummaryBtnDisabled ∧
    (handleProgressUpdate d s).exportSummaryBtnDisabled = s.exportSummaryBtnDisabled ∧
    (handleProgressUpdate d s).translateBtnDisabled = s.translateBtnDisabled ∧
    (handleProgressUpdate d s).fileNameText = s.fileNameText ∧
    (handleProgressUpdate d s).downloadBtnUrl = s.downloadBtnUrl ∧
    (handleProgressUpdate d s).progressVisible = s.progressVisible := by
  unfold handleProgressUpdate
  cases d.progress <;> cases strTruthy d.status <;> cases d.apiCalls <;>
    cases d.cached <;> cases strTruthy d.message <;> simp [addLog]

theorem finishRun_of_complete (rs : RunState)
    (h : (rs.translationComplete && strTruthy rs.finalDownloadUrl) = true) :
    (finishRun rs).statusText = "Translation completed" ∧
    (finishRun rs).progressWidth = "100%" ∧
    (finishRun rs).downloadBtnUrl = some (rs.finalDownloadUrl.getD "") := by
  simp [finishRun, h, addDownloadButton, addLog]

theorem finishRun_of_incomplete (rs : RunState)
    (h : (rs.translationComplete && strTruthy rs.finalDownloadUrl) = false) :
    (finishRun rs).statusText ≠ "Translation completed" ∧
    (finishRun rs).downloadBtnUrl = rs.ui.downloadBtnUrl := by
  simp only [finishRun, h, Bool.false_eq_true, if_false]
  by_cases h2 : (addLog rs.ui "Stream complete").statusText = "Error" <;>
    simp [h2, addLog] <;> simp [addLog] at h2 <;> simp [h2]

/-! ## Claims -/

/-- C1: the claim that the decoded line sequence is invariant under the
partition of the byte stream into chunks is false of the code: the stream
loop splits every chunk on its own with no carry-over, so a line split across
a chunk boundary is emitted as two fragments.  The same underlying bytes
`\x7b"progress":50\x7d\n` delivered whole yield the single complete line,
while delivered as the two chunks `\x7b"prog` and `ress":50\x7d\n` they yield
two partial fragments. -/
theorem decode_not_chunk_invariant :
    String.mk ("\x7b\"prog".data ++ "ress\":50\x7d\n".data) = "\x7b\"progress\":50\x7d\n" ∧
    decodeChunks ["\x7b\"progress\":50\x7d\n"] = ["\x7b\"progress\":50\x7d"] ∧
    decodeChunks ["\x7b\"prog", "ress\":50\x7d\n"] = ["\x7b\"prog", "ress\":50\x7d"] ∧
    decodeChunks ["\x7b\"prog", "ress\":50\x7d\n"] ≠ decodeChunks ["\x7b\"progress\":50\x7d\n"] := by
  refine ⟨rfl, rfl, rfl, ?_⟩
  decide

/-- C2 counterexample: `finalDownloadUrl` is overwritten by every record with
a truthy `downloadUrl`, so after a run whose records carry `downloadUrl` `a`
and then `b`, the recorded value is `b`, not the first value `a`. -/
theorem first_downloadUrl_does_not_win :
    (processLines
        [Line.record { downloadUrl := some "a" } "u1",
         Line.record { downloadUrl := some "b" } "u2"]
        (initRun initialUI)).finalDownloadUrl = some "b" ∧
      some "b" ≠ some "a" := by
  refine ⟨rfl, ?_⟩
  decide

/-- C2 amended: the terminal download URL recorded for a run is the value of
the LAST record with a truthy `downloadUrl` (each such record overwrites the
previous value); records after the first do change the recorded value. -/
theorem finalDownloadUrl_is_last (ls : List Line) (s0 : UIState) :
    (processLines ls (initRun s0)).finalDownloadUrl = lastDownloadUrl ls := by
  rw [processLines_finalDownloadUrl]
  cases lastDownloadUrl ls <;> rfl

/-- C3: the claim that every present recognized field is applied exactly once
fails on the code at a record carrying both `summary` and `downloadUrl`: after
the `downloadUrl` assignments the undefined identifier `logger` raises a
ReferenceError, so the summary is never applied (the summary cells keep their
initial empty value) and the catch clause logs the line as non-JSON. -/
theorem summary_not_applied_with_downloadUrl :
    (processLine (initRun initialUI)
        (Line.record { summary := some "s", downloadUrl := some "u" } "raw")).finalDownloadUrl
        = some "u" ∧
    (processLine (initRun initialUI)
        (Line.record { summary := some "s", downloadUrl := some "u" } "raw")).ui.currentSummary
        = "" ∧
    (processLine (initRun initialUI)
        (Line.record { summary := some "s", downloadUrl := some "u" } "raw")).ui.summaryDisplay
        = "" ∧
    (processLine (initRun initialUI)
        (Line.record { summary := some "s", downloadUrl := some "u" } "raw")).ui.log
        = ["Non-JSON update: raw"] := by
  refine ⟨rfl, rfl, rfl, ?_⟩
  decide

/-- C4: whenever a file is selected, the translate click handler ends with the
translate button re-enabled, on every transport outcome (fetch rejection,
non-ok HTTP response, reader error mid-stream, or a normally ending stream,
with or without a download URL): the `finally` block runs on every path. -/
theorem translate_button_reenabled (name : String) (rest : List String)
    (input : RunInput) (s0 : UIState) :
    (clickTranslate (name :: rest) input s0).ui.translateBtnDisabled = false := by
  cases input <;> rfl

/-- C5: a line that fails to parse as JSON appends exactly one log entry
(containing the raw text), changes nothing else in the run or page state, and
the run continues with the remaining lines. -/
theorem malformed_line_only_logs (raw : String) (s : RunState) (ls : List Line) :
    (processLine s (Line.junk raw)).ui.log = s.ui.log ++ ["Non-JSON update: " ++ raw] ∧
    (processLine s (Line.junk raw)).translationComplete = s.translationComplete ∧
    (processLine s (Line.junk raw)).summaryGenerated = s.summaryGenerated ∧
    (processLine s (Line.junk raw)).finalDownloadUrl = s.finalDownloadUrl ∧
    (processLine s (Line.junk raw)).ui.progressVisible = s.ui.progressVisible ∧
    (processLine s (Line.junk raw)).ui.progressWidth = s.ui.progressWidth ∧
    (processLine s (Line.junk raw)).ui.statusText = s.ui.statusText ∧
    (processLine s (Line.junk raw)).ui.apiCallsText = s.ui.apiCallsText ∧
    (processLine s (Line.junk raw)).ui.cachedText = s.ui.cachedText ∧
    (processLine s (Line.junk raw)).ui.summaryDisplay = s.ui.summaryDisplay ∧
    (processLine s (Line.junk raw)).ui.summaryVisible = s.ui.summaryVisible ∧
    (processLine s (Line.junk raw)).ui.editSummaryBtnDisabled = s.ui.editSummaryBtnDisabled ∧
    (processLine s (Line.junk raw)).ui.exportSummaryBtnDisabled = s.ui.exportSummaryBtnDisabled ∧
    (processLine s (Line.junk raw)).ui.currentSummary = s.ui.currentSummary ∧
    (processLine s (Line.junk raw)).ui.translateBtnDisabled = s.ui.translateBtnDisabled ∧
    (processLine s (Line.junk raw)).ui.fileNameText = s.ui.fileNameText ∧
    (processLine s (Line.junk raw)).ui.downloadBtnUrl = s.ui.downloadBtnUrl ∧
    processLines (Line.junk raw :: ls) s = processLines ls (processLine s (Line.junk raw)) :=
  ⟨rfl, rfl, rfl, rfl, rfl, rfl, rfl, rfl, rfl, rfl, rfl, rfl, rfl, rfl, rfl, rfl, rfl, rfl⟩

/-- C10: activating the translate control with no file selected returns before
any effect: the resulting page state is exactly the previous one and no
request is sent to the server. -/
theorem no_file_no_effect (input : RunInput) (s0 : UIState) :
    clickTranslate [] input s0 = { requestSent := false, ui := s0 } := rfl

/-- C6: a candidate file name is accepted iff its lowercased form ends with
`.docx` or `.pdf`; on accept the name is recorded and the translate button is
enabled with an acceptance log entry, on reject the label shows the fixed
rejection message, the button is disabled and the rejection reason is
logged. -/
theorem handleFiles_accepts_iff (name : String) (s : UIState) :
    ((endsWithJS (toLowerJS name) ".docx" || endsWithJS (toLowerJS name) ".pdf") = true →
      handleFiles [name] s =
        { s with fileNameText := name, translateBtnDisabled := false,
                 log := s.log ++ ["File selected: " ++ name] }) ∧
    ((endsWithJS (toLowerJS name) ".docx" || endsWithJS (toLowerJS name) ".pdf") = false →
      handleFiles [name] s =
        { s with fileNameText := "Please select a DOCX or PDF file",
                 translateBtnDisabled := true,
                 log := s.log ++
                   ["Error: Invalid file type. Please select a DOCX or PDF file."] }) := by
  constructor <;> intro h <;> simp [handleFiles, h]

/-- Witness for C6: `Report.PDF` is accepted, `report.txt` is rejected. -/
theorem handleFiles_accepts_iff_witness :
    handleFiles ["Report.PDF"] initialUI =
      { initialUI with fileNameText := "Report.PDF", translateBtnDisabled := false,
                       log := initialUI.log ++ ["File selected: " ++ "Report.PDF"] } ∧
    handleFiles ["report.txt"] initialUI =
      { initialUI with fileNameText := "Please select a DOCX or PDF file",
                       translateBtnDisabled := true,
                       log := initialUI.log ++
                         ["Error: Invalid file type. Please select a DOCX or PDF file."] } :=
  ⟨(handleFiles_accepts_iff "Report.PDF" initialUI).1 (by decide),
   (handleFiles_accepts_iff "report.txt" initialUI).2 (by decide)⟩


theorem clickTranslate_streamOk_ui (fname : String) (rest : List String)
    (ls : List Line) (s0 : UIState) :
    (clickTranslate (fname :: rest) (RunInput.streamOk ls) s0).ui =
      { finishRun (processLines ls (initRun (addLog (addLog (startRun s0)
          "Sending file to server...")
          "Connected to server stream. Waiting for updates...")))
        with translateBtnDisabled := false } := rfl

theorem processLines_initRun_tc (ls : List Line) (s2 : UIState) :
    (processLines ls (initRun s2)).translationComplete = ls.any lineHasDownloadUrl := by
  rw [processLines_translationComplete]
  simp [initRun]

theorem processLines_initRun_final (ls : List Line) (s2 : UIState) :
    (processLines ls (initRun s2)).finalDownloadUrl = lastDownloadUrl ls := by
  rw [processLines_finalDownloadUrl]
  cases lastDownloadUrl ls <;> rfl

theorem processLines_initRun_guard (ls : List Line) (s2 : UIState) :
    ((processLines ls (initRun s2)).translationComplete
      && strTruthy (processLines ls (initRun s2)).finalDownloadUrl)
      = ls.any lineHasDownloadUrl := by
  cases hA : ls.any lineHasDownloadUrl with
  | false => rw [processLines_initRun_tc, hA, Bool.false_and]
  | true =>
      have hs : strTruthy (processLines ls (initRun s2)).finalDownloadUrl = true := by
        apply processLines_truthy_invariant
        · intro hq
          exact absurd hq (by simp [initRun])
        · rw [processLines_initRun_tc, hA]
      rw [processLines_initRun_tc, hA, hs, Bool.true_and]

theorem finishRun_processLines_spec (ls : List Line) (s2 : UIState) :
    ((finishRun (processLines ls (initRun s2))).statusText = "Translation completed"
        ↔ ls.any lineHasDownloadUrl = true) ∧
    (ls.any lineHasDownloadUrl = true →
      (finishRun (processLines ls (initRun s2))).progressWidth = "100%" ∧
      (finishRun (processLines ls (initRun s2))).downloadBtnUrl = lastDownloadUrl ls ∧
      ((finishRun (processLines ls (initRun s2))).downloadBtnUrl).isSome = true) := by
  cases hA : ls.any lineHasDownloadUrl with
  | true =>
      have h1 := finishRun_of_complete (processLines ls (initRun s2))
        (by rw [processLines_initRun_guard]; exact hA)
      have hsome : (lastDownloadUrl ls).isSome = true := by
        rw [lastDownloadUrl_isSome, hA]
      refine ⟨⟨fun _ => rfl, fun _ => h1.1⟩, fun _ => ⟨h1.2.1, ?_, ?_⟩⟩
      · rw [h1.2.2, processLines_initRun_final]
        cases hL : lastDownloadUrl ls with
        | none => rw [hL] at hsome; exact absurd hsome (by simp)
        | some u => rfl
      · rw [h1.2.2]; rfl
  | false =>
      have h1 := finishRun_of_incomplete (processLines ls (initRun s2))
        (by rw [processLines_initRun_guard]; exact hA)
      exact ⟨⟨fun hst => absurd hst h1.1, fun hf => by cases hf⟩, fun hf => by cases hf⟩

/-- C7: a run over a normally ending stream reaches the `Translation
completed` status iff some line of the stream carried a truthy `downloadUrl`;
in that case the progress bar is forced to 100% and the download button is
bound to the recorded URL (the last one carried by the stream, a present
value).  Runs that do not reach the end of the stream (failed submission,
rejected fetch, or a reader error mid-stream) end with status `Error`
instead. -/
theorem completed_iff_downloadUrl (fname : String) (ls : List Line) (s0 : UIState) :
    ((clickTranslate [fname] (RunInput.streamOk ls) s0).ui.statusText = "Translation completed"
        ↔ ls.any lineHasDownloadUrl = true) ∧
    (ls.any lineHasDownloadUrl = true →
        (clickTranslate [fname] (RunInput.streamOk ls) s0).ui.progressWidth = "100%" ∧
        (clickTranslate [fname] (RunInput.streamOk ls) s0).ui.downloadBtnUrl
          = lastDownloadUrl ls ∧
        ((clickTranslate [fname] (RunInput.streamOk ls) s0).ui.downloadBtnUrl).isSome
          = true) ∧
    (∀ processed msg,
      (clickTranslate [fname] (RunInput.streamThrows processed msg) s0).ui.statusText
        = "Error") ∧
    (∀ code,
      (clickTranslate [fname] (RunInput.httpError code) s0).ui.statusText = "Error") ∧
    (∀ msg,
      (clickTranslate [fname] (RunInput.fetchRejected msg) s0).ui.statusText = "Error") :=
  ⟨(finishRun_processLines_spec ls (addLog (addLog (startRun s0)
      "Sending file to server...") "Connected to server stream. Waiting for updates...")).1,
   (finishRun_processLines_spec ls (addLog (addLog (startRun s0)
      "Sending file to server...") "Connected to server stream. Waiting for updates...")).2,
   fun _ _ => rfl, fun _ => rfl, fun _ => rfl⟩

/-- Witness for C7: a one-line stream carrying a `downloadUrl` ends with the
completed status, a full bar, and the download button bound to that URL. -/
theorem completed_iff_downloadUrl_witness :
    (clickTranslate ["a.pdf"] (RunInput.streamOk [Line.record { downloadUrl := some "u" } "r"])
        initialUI).ui.statusText = "Translation completed" ∧
    (clickTranslate ["a.pdf"] (RunInput.streamOk [Line.record { downloadUrl := some "u" } "r"])
        initialUI).ui.progressWidth = "100%" ∧
    (clickTranslate ["a.pdf"] (RunInput.streamOk [Line.record { downloadUrl := some "u" } "r"])
        initialUI).ui.downloadBtnUrl
      = lastDownloadUrl [Line.record { downloadUrl := some "u" } "r"] :=
  ⟨(completed_iff_downloadUrl "a.pdf" [Line.record { downloadUrl := some "u" } "r"]
      initialUI).1.mpr (by decide),
   ((completed_iff_downloadUrl "a.pdf" [Line.record { downloadUrl := some "u" } "r"]
      initialUI).2.1 (by decide)).1,
   ((completed_iff_downloadUrl "a.pdf" [Line.record { downloadUrl := some "u" } "r"]
      initialUI).2.1 (by decide)).2.1⟩

/-- C8: a parsed record with a truthy `downloadUrl` has the URL recorded and
the run marked logically complete, after which the reference to the undefined
identifier `logger` raises an error caught by the per-line handler: the line
is additionally logged as a non-JSON update and the summary branch of the same
record is never applied (the summary cells are untouched). -/
theorem downloadUrl_line_logged_as_nonjson (d : Record) (raw : String) (s : RunState)
    (h : strTruthy d.downloadUrl = true) :
    processLine s (Line.record d raw) =
      { translationComplete := true, summaryGenerated := s.summaryGenerated,
        finalDownloadUrl := d.downloadUrl,
        ui := addLog (handleProgressUpdate d s.ui) ("Non-JSON update: " ++ raw) } ∧
    (processLine s (Line.record d raw)).ui.currentSummary = s.ui.currentSummary ∧
    (processLine s (Line.record d raw)).ui.summaryDisplay = s.ui.summaryDisplay ∧
    (processLine s (Line.record d raw)).ui.summaryVisible = s.ui.summaryVisible := by
  have heq : processLine s (Line.record d raw) =
      { translationComplete := true, summaryGenerated := s.summaryGenerated,
        finalDownloadUrl := d.downloadUrl,
        ui := addLog (handleProgressUpdate d s.ui) ("Non-JSON update: " ++ raw) } := by
    simp [processLine, h]
  refine ⟨heq, ?_, ?_, ?_⟩ <;> rw [heq] <;> simp [addLog]
  · exact (handleProgressUpdate_frame d s.ui).1
  · exact (handleProgressUpdate_frame d s.ui).2.1
  · exact (handleProgressUpdate_frame d s.ui).2.2.1

/-- Witness for C8 at a concrete record carrying both `downloadUrl` and
`summary`. -/
theorem downloadUrl_line_logged_as_nonjson_witness :
    processLine (initRun initialUI)
        (Line.record { summary := some "sum", downloadUrl := some "u" } "r") =
      { translationComplete := true, summaryGenerated := (initRun initialUI).summaryGenerated,
        finalDownloadUrl := Record.downloadUrl { summary := some "sum", downloadUrl := some "u" },
        ui := addLog (handleProgressUpdate { summary := some "sum", downloadUrl := some "u" }
          (initRun initialUI).ui) ("Non-JSON update: " ++ "r") } ∧
    (processLine (initRun initialUI)
        (Line.record { summary := some "sum", downloadUrl := some "u" } "r")).ui.currentSummary
      = (initRun initialUI).ui.currentSummary ∧
    (processLine (initRun initialUI)
        (Line.record { summary := some "sum", downloadUrl := some "u" } "r")).ui.summaryDisplay
      = (initRun initialUI).ui.summaryDisplay ∧
    (processLine (initRun initialUI)
        (Line.record { summary := some "sum", downloadUrl := some "u" } "r")).ui.summaryVisible
      = (initRun initialUI).ui.summaryVisible :=
  downloadUrl_line_logged_as_nonjson { summary := some "sum", downloadUrl := some "u" }
    "r" (initRun initialUI) (by decide)

/-- C9: when the clear-cache request fails (non-ok response, network error, or
a body that fails to parse), the handler leaves the whole state unchanged
except for exactly one error log entry; the two counters are reset to zero
only on a fully successful response. -/
theorem cache_error_preserves_counters (r : CacheResponse) (s : UIState) (m : String)
    (h : cacheErrorMsg r = some m) :
    clickClearCache r s = addLog s ("Error clearing cache: " ++ m) ∧
    (clickClearCache r s).apiCallsText = s.apiCallsText ∧
    (clickClearCache r s).cachedText = s.cachedText ∧
    (clickClearCache r s).log = s.log ++ ["Error clearing cache: " ++ m] ∧
    (∀ msg, (clickClearCache (CacheResponse.ok msg) s).apiCallsText = "0" ∧
            (clickClearCache (CacheResponse.ok msg) s).cachedText = "0") := by
  cases r with
  | ok m2 => simp [cacheErrorMsg] at h
  | okBadJson m2 =>
      simp only [cacheErrorMsg, Option.some.injEq] at h
      subst h
      exact ⟨rfl, rfl, rfl, rfl, fun msg => ⟨rfl, rfl⟩⟩
  | httpError =>
      simp only [cacheErrorMsg, Option.some.injEq] at h
      subst h
      exact ⟨rfl, rfl, rfl, rfl, fun msg => ⟨rfl, rfl⟩⟩
  | networkError m2 =>
      simp only [cacheErrorMsg, Option.some.injEq] at h
      subst h
      exact ⟨rfl, rfl, rfl, rfl, fun msg => ⟨rfl, rfl⟩⟩

/-- Witness for C9 at a concrete failing request (non-ok response). -/
theorem cache_error_preserves_counters_witness :
    clickClearCache CacheResponse.httpError initialUI =
      addLog initialUI ("Error clearing cache: " ++ "Failed to clear cache") ∧
    (clickClearCache CacheResponse.httpError initialUI).apiCallsText = initialUI.apiCallsText ∧
    (clickClearCache CacheResponse.httpError initialUI).cachedText = initialUI.cachedText ∧
    (clickClearCache CacheResponse.httpError initialUI).log
      = initialUI.log ++ ["Error clearing cache: " ++ "Failed to clear cache"] ∧
    (∀ msg, (clickClearCache (CacheResponse.ok msg) initialUI).apiCallsText = "0" ∧
            (clickClearCache (CacheResponse.ok msg) initialUI).cachedText = "0") :=
  cache_error_preserves_counters CacheResponse.httpError initialUI "Failed to clear cache" rfl
